import Mathlib

/-!
Verification of the neural combat decision server (neural_server.py).

The server receives one JSON observation per TCP connection and answers
with a JSON decision.  We shallowly embed the two core components:

  - the rule-based policy engine, heuristic_policy (source lines 23-47),
    as a function on a JSON value type; Python runtime errors (KeyError,
    TypeError, AttributeError) are made explicit with an Except monad,
    and the coin of random.choice in rule 8 is an explicit Bool argument;
  - the per-connection protocol handler, handle_connection (source lines
    64-80), and the sequential accept loop of main (source lines 95-98),
    over a byte-level connection model in which inbound traffic is a list
    of chunks (an empty chunk denotes peer close) and the library calls
    json.loads / json.dumps are abstract parameters.  Socket writes and
    the final close are modelled as non-raising.

Numbers are modelled as rationals: the comparisons and the literal
constants of the source are exact in this model.
-/

/-- A JSON value as produced by json.loads: null, booleans, numbers
(modelled exactly as rationals), strings, arrays and objects. -/
inductive JVal where
  | null : JVal
  | bool : Bool → JVal
  | num : ℚ → JVal
  | str : String → JVal
  | arr : List JVal → JVal
  | obj : List (String × JVal) → JVal

/-- The Python exceptions the embedded code can raise. -/
inductive PyErr where
  | keyError : PyErr
  | typeError : PyErr
  | attributeError : PyErr
  | valueError : PyErr
deriving DecidableEq, Repr

/-- A decision record as returned by the policy: the dict with keys
action and confidence built at the return statements of heuristic_policy. -/
structure Decision where
  action : String
  confidence : ℚ
deriving DecidableEq, Repr

/-- Python truth test for hostile is None. -/
def JVal.isNull : JVal → Bool
  | .null => true
  | _ => false

/-- Python d.get(k, dflt): succeeds on a dict, raises AttributeError on
any other JSON value. -/
def pyGetD : JVal → String → JVal → Except PyErr JVal
  | .obj fs, k, dflt => .ok ((fs.lookup k).getD dflt)
  | _, _, _ => .error .attributeError

/-- Python d[k] with a string key: KeyError when a dict lacks the key,
TypeError when the value is not a dict at all. -/
def pyIndex : JVal → String → Except PyErr JVal
  | .obj fs, k =>
    match fs.lookup k with
    | some v => .ok v
    | none => .error .keyError
  | _, _ => .error .typeError

/-- Numeric coercion performed by the comparison and arithmetic operators
of Python: numbers compare as themselves, booleans as 0 or 1, every other
JSON value raises TypeError. -/
def pyToNum : JVal → Except PyErr ℚ
  | .num q => .ok q
  | .bool b => .ok (if b then 1 else 0)
  | _ => .error .typeError

/-- Python iteration over a JSON value: a list yields its elements, a
string yields its characters as one-character strings, a dict yields its
keys; numbers, booleans and null are not iterable. -/
def pyIterElems : JVal → Except PyErr (List JVal)
  | .arr xs => .ok xs
  | .str s => .ok (s.toList.map (fun c => .str (String.mk [c])))
  | .obj fs => .ok (fs.map (fun p => .str p.1))
  | _ => .error .typeError

/-- One step of the generator on source line 35: e.get("distance", 99) < 8. -/
def entityNearby (e : JVal) : Except PyErr Bool :=
  match pyGetD e "distance" (.num 99) with
  | .error er => .error er
  | .ok dv =>
    match pyToNum dv with
    | .error er => .error er
    | .ok q => .ok (decide (q < 8))

/-- Source line 35: sum(1 for e in all_entities if e.get("distance", 99) < 8),
evaluated left to right, propagating the first error. -/
def nearbyCount : List JVal → Except PyErr Nat
  | [] => .ok 0
  | e :: rest =>
    match entityNearby e with
    | .error er => .error er
    | .ok b =>
      match nearbyCount rest with
      | .error er => .error er
      | .ok n => .ok (if b then n + 1 else n)

/-- Source lines 37-47: the rule chain evaluated after dist, angle and
nearby_count are in scope.  The value bound to dist on line 33 is kept as
a raw JSON value because Python only type-checks it at its first
comparison, on line 41: a hostile with a non-numeric distance still
reaches rules 4 and 5.  The coin argument resolves random.choice on
line 46: true picks strafe_left, false picks strafe_right. -/
def rules_tail (coin : Bool) (health angle : ℚ) (nearby : Nat) (distV : JVal) :
    Except PyErr Decision :=
  if nearby ≥ 3 ∧ health < 15 then .ok ⟨"flee", 17/20⟩
  else if angle > 90 then .ok ⟨"strafe_left", 7/10⟩
  else
    match pyToNum distV with
    | .error er => .error er
    | .ok dist =>
      if dist > 6 then .ok ⟨"attack", 3/5⟩
      else if dist ≤ 3 ∧ angle < 45 then .ok ⟨"attack", 19/20⟩
      else if dist ≤ 6 then
        .ok ⟨if coin then "strafe_left" else "strafe_right", 3/4⟩
      else .ok ⟨"attack", 3/5⟩

/-- Source lines 37-46 without the trailing return of line 47, with dist
already numeric: the value some d when one of rules 4-8 fires with
decision d, and none exactly when control would reach line 47. -/
def rules_tail_no_fallback (coin : Bool) (health angle dist : ℚ) (nearby : Nat) :
    Option Decision :=
  if nearby ≥ 3 ∧ health < 15 then some ⟨"flee", 17/20⟩
  else if angle > 90 then some ⟨"strafe_left", 7/10⟩
  else if dist > 6 then some ⟨"attack", 3/5⟩
  else if dist ≤ 3 ∧ angle < 45 then some ⟨"attack", 19/20⟩
  else if dist ≤ 6 then
    some ⟨if coin then "strafe_left" else "strafe_right", 3/4⟩
  else none

/-- Source lines 23-47, heuristic_policy.  The observation is any JSON
value; the three obs.get calls on lines 24-26 raise AttributeError unless
the observation is a dict, and otherwise default bot_health to 20,
nearest_hostile to null and all_entities to the empty list.  The health
comparison on line 28 raises TypeError on a non-numeric bot_health; the
subscript on line 33, the get and abs on line 34 and the generator on
line 35 run in source order, so their errors surface in that order. -/
def heuristic_policy (coin : Bool) (obs : JVal) : Except PyErr Decision :=
  match obs with
  | .obj fs =>
    let healthV := (fs.lookup "bot_health").getD (.num 20)
    let hostile := (fs.lookup "nearest_hostile").getD .null
    let entsV := (fs.lookup "all_entities").getD (.arr [])
    match pyToNum healthV with
    | .error er => .error er
    | .ok health =>
      if health ≤ 4 then .ok ⟨"flee", 99/100⟩
      else if hostile.isNull then .ok ⟨"idle", 19/20⟩
      else
        match pyIndex hostile "distance" with
        | .error er => .error er
        | .ok distV =>
          match pyGetD hostile "angle" (.num 0) with
          | .error er => .error er
          | .ok angleV =>
            match pyToNum angleV with
            | .error er => .error er
            | .ok angleRaw =>
              match pyIterElems entsV with
              | .error er => .error er
              | .ok ents =>
                match nearbyCount ents with
                | .error er => .error er
                | .ok nearby => rules_tail coin health |angleRaw| nearby distV
  | _ => .error .attributeError

/-!
Connection handler and accept loop.  Bytes are modelled as characters;
the inbound side of a connection is the list of chunks successive recv
calls return, where an empty chunk means the peer closed.  When the list
is exhausted the peer is also considered closed.
-/

/-- Source lines 66-71: the read loop of handle_connection.  Starting
from the accumulated buffer, append chunks until the peer closes, the
buffer contains a newline byte, or its length exceeds 8192. -/
def recvData : List (List Char) → List Char → List Char
  | [], data => data
  | chunk :: rest, data =>
    if chunk = [] then data
    else
      let d := data ++ chunk
      if ('\n' ∈ d) ∨ d.length > 8192 then d else recvData rest d

/-- Python str.strip on the decoded request: whitespace removed from both
ends (source line 73). -/
def isPySpace (c : Char) : Bool :=
  c = ' ' || c = '\t' || c = '\n' || c = '\r' || c = '\x0b' || c = '\x0c'

/-- Strip leading and trailing whitespace from a character list. -/
def pyStrip (l : List Char) : List Char :=
  ((l.dropWhile isPySpace).reverse.dropWhile isPySpace).reverse

/-- The fixed fallback bytes of source line 78. -/
def fallback_response : List Char :=
  "\x7b\"action\":\"idle\",\"confidence\":0.5\x7d\n".toList

/-- Source lines 66-75, the try block of handle_connection: the list of
payloads passed to sendall, or the first exception raised.  The decode
parameter abstracts json.loads composed with bytes.decode (both can
raise, source line 73); the dumps parameter abstracts json.dumps (source
line 75); the policy parameter is the policy_fn argument, an arbitrary
function that may raise. -/
def handle_body (decode : List Char → Except PyErr JVal)
    (dumps : JVal → List Char) (policy : JVal → Except PyErr JVal)
    (chunks : List (List Char)) : Except PyErr (List (List Char)) :=
  let data := recvData chunks []
  if data = [] then .ok []
  else
    match decode (pyStrip data) with
    | .error er => .error er
    | .ok obs =>
      match policy obs with
      | .error er => .error er
      | .ok act => .ok [dumps act ++ ['\n']]

/-- The observable outcome of one handle_connection call: the payloads
written to the socket in order, how many times the stream was closed,
and the exception, if any, that propagates to the caller after the
except and finally clauses have run. -/
structure ConnOutcome where
  sent : List (List Char)
  closed : Nat
  escaped : Option PyErr
deriving DecidableEq, Repr

/-- Source lines 64-80, handle_connection: the except clause on line 76
catches every exception of the try block and answers with the fixed
fallback bytes; the finally clause on line 79 closes the stream on every
path.  The fallback sendall and the close are modelled as non-raising. -/
def handle_connection (decode : List Char → Except PyErr JVal)
    (dumps : JVal → List Char) (policy : JVal → Except PyErr JVal)
    (chunks : List (List Char)) : ConnOutcome :=
  match handle_body decode dumps policy chunks with
  | .ok sends => ⟨sends, 1, none⟩
  | .error _ => ⟨[fallback_response], 1, none⟩

/-- Observable events of the server process, tagged with the index of the
connection they belong to. -/
inductive Event where
  | accept : Nat → Event
  | send : Nat → List Char → Event
  | close : Nat → Event
deriving DecidableEq, Repr

/-- The events one handled connection contributes to the server trace. -/
def connEvents (i : Nat) (o : ConnOutcome) : List Event :=
  o.sent.map (Event.send i) ++ [Event.close i]

/-- Source lines 95-98, the accept loop of main: while True, accept a
connection, then call handle_connection on it before accepting the next.
The argument list holds the inbound chunks of the successive connections;
the result is the event trace the loop produces. -/
def serverTrace (decode : List Char → Except PyErr JVal)
    (dumps : JVal → List Char) (policy : JVal → Except PyErr JVal) :
    List (List (List Char)) → Nat → List Event
  | [], _ => []
  | chunks :: rest, i =>
    (Event.accept i :: connEvents i (handle_connection decode dumps policy chunks))
      ++ serverTrace decode dumps policy rest (i + 1)

/-!
Well-formedness predicates: the shape of observations on which the
policy provably returns (used by the amended totality claim), and
concrete instantiations of the abstract decode, dumps and policy
parameters used by closed witness statements.
-/

/-- A well-formed entity record: a dict whose distance field, when
present, is numeric. -/
def entWF : JVal → Bool
  | .obj fs =>
    match fs.lookup "distance" with
    | none => true
    | some (.num _) => true
    | some _ => false
  | _ => false

/-- A well-formed nearest_hostile value: null, or a dict holding a
numeric distance and, when present, a numeric angle. -/
def hostileWF : JVal → Bool
  | .null => true
  | .obj hs =>
    (match hs.lookup "distance" with
     | some (.num _) => true
     | _ => false)
    && (match hs.lookup "angle" with
        | none => true
        | some (.num _) => true
        | some _ => false)
  | _ => false

/-- A well-formed observation: a dict whose bot_health, when present, is
numeric, whose nearest_hostile, when present, is null or a well-formed
hostile record, and whose all_entities, when present, is a list of
well-formed entity records. -/
def obsWF : JVal → Bool
  | .obj fs =>
    (match fs.lookup "bot_health" with
     | none => true
     | some (.num _) => true
     | some _ => false)
    && hostileWF ((fs.lookup "nearest_hostile").getD .null)
    && (match (fs.lookup "all_entities").getD (.arr []) with
        | .arr es => es.all entWF
        | _ => false)
  | _ => false

/-- A concrete decoder that accepts every request, for witnesses. -/
def decodeOk : List Char → Except PyErr JVal := fun _ => .ok .null

/-- A concrete decoder that rejects every request, for witnesses. -/
def decodeBad : List Char → Except PyErr JVal := fun _ => .error .valueError

/-- A concrete serializer, for witnesses. -/
def dumpsConst : JVal → List Char := fun _ => ['o', 'k']

/-- A concrete policy that never raises, for witnesses. -/
def policyOk : JVal → Except PyErr JVal := fun v => .ok v

/-- A concrete policy that always raises, for witnesses. -/
def policyBad : JVal → Except PyErr JVal := fun _ => .error .typeError

/-- Stated from the claim wording, for comparison with nearbyCount: an
entity counts toward nearby_count exactly when its distance field is
present, numeric and strictly below 8. -/
def countsNearby : JVal → Bool
  | .obj fs =>
    match fs.lookup "distance" with
    | some (.num q) => decide (q < 8)
    | _ => false
  | _ => false

/-- The eight decision records appearing at the return statements of
heuristic_policy. -/
def decisionRange : List Decision :=
  [⟨"flee", 99/100⟩, ⟨"idle", 19/20⟩, ⟨"flee", 17/20⟩, ⟨"strafe_left", 7/10⟩,
   ⟨"attack", 3/5⟩, ⟨"attack", 19/20⟩, ⟨"strafe_left", 3/4⟩, ⟨"strafe_right", 3/4⟩]

/-!
Helper lemmas shared by the claim theorems.
-/

/-- On a list of well-formed entities, the generator of line 35 returns
without error and counts exactly the entities whose distance field is
present and numeric and strictly below 8. -/
theorem nearbyCount_wf (es : List JVal) (h : es.all entWF = true) :
    nearbyCount es = .ok (es.countP countsNearby) := by
  induction es with
  | nil => rfl
  | cons e rest ih =>
    rw [List.all_cons, Bool.and_eq_true] at h
    obtain ⟨he, hrest⟩ := h
    have hstep : entityNearby e = .ok (countsNearby e) := by
      cases e with
      | obj fs =>
        unfold entWF at he
        unfold entityNearby countsNearby pyGetD
        cases hl : fs.lookup "distance" with
        | none =>
          simp [hl, pyToNum]
          norm_num
        | some v => cases v <;> simp_all [pyToNum]
      | _ => simp_all [entWF]
    unfold nearbyCount
    rw [hstep, ih hrest, List.countP_cons]
    by_cases hc : countsNearby e = true <;> simp [hc]

/-- The rule chain of lines 37-46 always fires when dist is numeric, and
the full chain of lines 37-47 returns exactly the firing rule's decision:
the trailing return of line 47 contributes nothing. -/
theorem rules_tail_fires (coin : Bool) (health angle : ℚ) (nearby : Nat) (q : ℚ) :
    ∃ d, rules_tail_no_fallback coin health angle q nearby = some d ∧
      rules_tail coin health angle nearby (.num q) = .ok d := by
  unfold rules_tail rules_tail_no_fallback
  simp only [pyToNum]
  split_ifs with h1 h2 h3 h4 h5 <;>
    first
      | exact ⟨_, rfl, rfl⟩
      | exact absurd (le_of_not_lt h3) h5

/-- Every successful result of the rule chain is one of the eight return
records. -/
theorem rules_tail_ok_mem (coin : Bool) (health angle : ℚ) (nearby : Nat) (dv : JVal)
    (d : Decision) (hok : rules_tail coin health angle nearby dv = .ok d) :
    d ∈ decisionRange := by
  unfold rules_tail at hok
  repeat' split at hok
  all_goals (cases hok <;> simp [decisionRange])

/-- Every successful result of heuristic_policy is one of the eight
return records of the source. -/
theorem heuristic_ok_mem (coin : Bool) (obs : JVal) (d : Decision)
    (hok : heuristic_policy coin obs = .ok d) : d ∈ decisionRange := by
  cases obs with
  | obj fs =>
    unfold heuristic_policy at hok
    simp only [] at hok
    repeat' split at hok
    all_goals first
      | exact rules_tail_ok_mem _ _ _ _ _ _ hok
      | (cases hok <;> simp [decisionRange])
  | null => simp [heuristic_policy] at hok
  | bool b => simp [heuristic_policy] at hok
  | num q => simp [heuristic_policy] at hok
  | str s => simp [heuristic_policy] at hok
  | arr xs => simp [heuristic_policy] at hok

/-- C9: whenever heuristic_policy returns, the action is one of attack,
strafe_left, strafe_right, flee or idle - use_item is never emitted - and
the confidence is one of 0.6, 0.7, 0.75, 0.85, 0.95 and 0.99, hence lies
in the half-open interval from 0 exclusive to 1 inclusive. -/
theorem policy_output_range (coin : Bool) (obs : JVal) (d : Decision)
    (hok : heuristic_policy coin obs = .ok d) :
    (d.action = "attack" ∨ d.action = "strafe_left" ∨ d.action = "strafe_right" ∨
      d.action = "flee" ∨ d.action = "idle") ∧
    d.action ≠ "use_item" ∧
    (d.confidence = 3/5 ∨ d.confidence = 7/10 ∨ d.confidence = 3/4 ∨
      d.confidence = 17/20 ∨ d.confidence = 19/20 ∨ d.confidence = 99/100) ∧
    0 < d.confidence ∧ d.confidence ≤ 1 := by
  have hm := heuristic_ok_mem coin obs d hok
  simp only [decisionRange, List.mem_cons, List.not_mem_nil, or_false] at hm
  rcases hm with h | h | h | h | h | h | h | h <;> subst h <;>
    exact ⟨by simp, by simp, by norm_num, by norm_num, by norm_num⟩

/-- C1 (amended): heuristic_policy returns a decision, and never raises,
on every well-formed observation: a record whose bot_health is absent or
numeric, whose nearest_hostile is absent, null or a record with a numeric
distance and an absent or numeric angle, and whose all_entities is absent
or a list of records with absent or numeric distance fields.  On records
outside this shape the function can raise (see heuristic_policy_raises),
so the original unconditional totality claim is false. -/
theorem policy_total_on_wellformed (coin : Bool) (obs : JVal)
    (hwf : obsWF obs = true) : ∃ d, heuristic_policy coin obs = .ok d := by
  cases obs with
  | obj fs =>
    unfold obsWF at hwf
    rw [Bool.and_eq_true, Bool.and_eq_true] at hwf
    obtain ⟨⟨hh, hhost⟩, hents⟩ := hwf
    obtain ⟨q, hq⟩ : ∃ q : ℚ, pyToNum ((fs.lookup "bot_health").getD (.num 20)) = .ok q := by
      cases hl : fs.lookup "bot_health" with
      | none => exact ⟨20, rfl⟩
      | some v => rw [hl] at hh; cases v <;> simp_all [pyToNum]
    by_cases h4 : q ≤ 4
    · exact ⟨⟨"flee", 99/100⟩, by simp [heuristic_policy, hq, h4]⟩
    · cases hl2 : fs.lookup "nearest_hostile" with
      | none => exact ⟨⟨"idle", 19/20⟩, by simp [heuristic_policy, hq, h4, hl2, JVal.isNull]⟩
      | some hv =>
        rw [hl2] at hhost
        cases hv with
        | null => exact ⟨⟨"idle", 19/20⟩, by simp [heuristic_policy, hq, h4, hl2, JVal.isNull]⟩
        | bool b => simp [hostileWF] at hhost
        | num nq => simp [hostileWF] at hhost
        | str s => simp [hostileWF] at hhost
        | arr xs => simp [hostileWF] at hhost
        | obj hs =>
          simp only [Option.getD_some, hostileWF, Bool.and_eq_true] at hhost
          obtain ⟨hdist, hangle⟩ := hhost
          obtain ⟨dq, hdq⟩ : ∃ dq : ℚ, pyIndex (.obj hs) "distance" = .ok (.num dq) := by
            unfold pyIndex
            cases hld : hs.lookup "distance" with
            | none => rw [hld] at hdist; simp at hdist
            | some dv => rw [hld] at hdist; cases dv <;> simp_all
          obtain ⟨av, aq, hga, hpa⟩ : ∃ (av : JVal) (aq : ℚ),
              pyGetD (.obj hs) "angle" (.num 0) = .ok av ∧ pyToNum av = .ok aq := by
            unfold pyGetD
            cases hla : hs.lookup "angle" with
            | none => exact ⟨.num 0, 0, by simp [pyGetD, hla], rfl⟩
            | some av => rw [hla] at hangle; cases av <;> simp_all [pyToNum]
          obtain ⟨es, hiter, hesWF⟩ : ∃ es,
              pyIterElems ((fs.lookup "all_entities").getD (.arr [])) = .ok es ∧
                es.all entWF = true := by
            cases hl3 : fs.lookup "all_entities" with
            | none => exact ⟨[], rfl, rfl⟩
            | some ev => rw [hl3] at hents; cases ev <;> simp_all [pyIterElems]
          have hnear := nearbyCount_wf es hesWF
          obtain ⟨dfin, _, hrt⟩ := rules_tail_fires coin q |aq| (es.countP countsNearby) dq
          exact ⟨dfin, by
            simp only [heuristic_policy, hl2, Option.getD_some, hq, JVal.isNull,
              if_neg h4, hdq, hga, hpa, hiter, hnear, hrt, Bool.false_eq_true,
              if_false]⟩
  | null => simp [obsWF] at hwf
  | bool b => simp [obsWF] at hwf
  | num q => simp [obsWF] at hwf
  | str s => simp [obsWF] at hwf
  | arr xs => simp [obsWF] at hwf

/-- Witness for policy_total_on_wellformed: a concrete well-formed
observation on which the policy returns. -/
theorem policy_total_on_wellformed_witness :
    obsWF (.obj [("bot_health", .num 12),
      ("nearest_hostile", .obj [("distance", .num 5)]),
      ("all_entities", .arr [.obj []])]) = true ∧
    ∃ d, heuristic_policy true (.obj [("bot_health", .num 12),
      ("nearest_hostile", .obj [("distance", .num 5)]),
      ("all_entities", .arr [.obj []])]) = .ok d :=
  ⟨rfl, policy_total_on_wellformed true _ rfl⟩

/-- C1 is false as stated: heuristic_policy raises KeyError on an
observation whose nearest_hostile record lacks a distance field (the
subscript on source line 33), and TypeError on a non-numeric bot_health
(the comparison on source line 28), instead of returning a default
decision. -/
theorem heuristic_policy_raises :
    heuristic_policy false (.obj [("nearest_hostile", .obj [])]) =
      .error .keyError ∧
    heuristic_policy false (.obj [("bot_health", .str "low")]) =
      .error .typeError :=
  ⟨rfl, rfl⟩

/-- C6: any observation whose bot_health field holds a number at most 4
makes heuristic_policy return flee with confidence 0.99, whatever every
other field holds, including a missing or malformed nearest_hostile. -/
theorem low_health_flees (coin : Bool) (fs : List (String × JVal)) (q : ℚ)
    (hl : fs.lookup "bot_health" = some (.num q)) (hq : q ≤ 4) :
    heuristic_policy coin (.obj fs) = .ok ⟨"flee", 99/100⟩ := by
  simp [heuristic_policy, hl, pyToNum, hq]

/-- Witness for low_health_flees: health 2 with a hostile record lacking
every field still flees with confidence 0.99. -/
theorem low_health_flees_witness :
    heuristic_policy false
      (.obj [("bot_health", .num 2), ("nearest_hostile", .obj [])]) =
      .ok ⟨"flee", 99/100⟩ :=
  low_health_flees false _ 2 rfl (by norm_num)

/-- C7: an observation whose bot_health is absent (default 20) or a
number above 4 and whose nearest_hostile is absent or null makes
heuristic_policy return idle with confidence 0.95; the hostile branch,
and hence every dereference of hostile fields, is never reached, so no
constraint on the remaining fields is needed. -/
theorem no_hostile_idles (coin : Bool) (fs : List (String × JVal))
    (hh : fs.lookup "bot_health" = none ∨
      ∃ q : ℚ, fs.lookup "bot_health" = some (.num q) ∧ 4 < q)
    (hn : fs.lookup "nearest_hostile" = none ∨
      fs.lookup "nearest_hostile" = some .null) :
    heuristic_policy coin (.obj fs) = .ok ⟨"idle", 19/20⟩ := by
  have h20 : ¬(20 : ℚ) ≤ 4 := by norm_num
  rcases hn with hn | hn <;> rcases hh with hh | ⟨q, hh, hq⟩
  · simp [heuristic_policy, hh, hn, pyToNum, JVal.isNull, h20]
  · simp [heuristic_policy, hh, hn, pyToNum, JVal.isNull, not_le.mpr hq]
  · simp [heuristic_policy, hh, hn, pyToNum, JVal.isNull, h20]
  · simp [heuristic_policy, hh, hn, pyToNum, JVal.isNull, not_le.mpr hq]

/-- Witness for no_hostile_idles at the empty observation: every field
absent, so health defaults to 20 and no hostile is present. -/
theorem no_hostile_idles_witness :
    heuristic_policy true (.obj []) = .ok ⟨"idle", 19/20⟩ :=
  no_hostile_idles true [] (.inl rfl) (.inl rfl)

/-- C8: rules 4 through 8 of the chain on source lines 37-46 form a
complete partition once dist is numeric: some rule always fires, and the
full chain including the trailing return of line 47 agrees with the
chain from which that return has been removed, so line 47 is never
executed. -/
theorem rule9_unreachable (coin : Bool) (health angle dist : ℚ) (nearby : Nat) :
    ∃ d, rules_tail_no_fallback coin health angle dist nearby = some d ∧
      rules_tail coin health angle nearby (.num dist) = .ok d :=
  rules_tail_fires coin health angle nearby dist

/-- Witness for policy_output_range at the empty observation, whose
decision is idle with confidence 0.95. -/
theorem policy_output_range_witness :
    ((⟨"idle", 19/20⟩ : Decision).action = "attack" ∨
      (⟨"idle", 19/20⟩ : Decision).action = "strafe_left" ∨
      (⟨"idle", 19/20⟩ : Decision).action = "strafe_right" ∨
      (⟨"idle", 19/20⟩ : Decision).action = "flee" ∨
      (⟨"idle", 19/20⟩ : Decision).action = "idle") ∧
    (⟨"idle", 19/20⟩ : Decision).action ≠ "use_item" ∧
    ((⟨"idle", 19/20⟩ : Decision).confidence = 3/5 ∨
      (⟨"idle", 19/20⟩ : Decision).confidence = 7/10 ∨
      (⟨"idle", 19/20⟩ : Decision).confidence = 3/4 ∨
      (⟨"idle", 19/20⟩ : Decision).confidence = 17/20 ∨
      (⟨"idle", 19/20⟩ : Decision).confidence = 19/20 ∨
      (⟨"idle", 19/20⟩ : Decision).confidence = 99/100) ∧
    0 < (⟨"idle", 19/20⟩ : Decision).confidence ∧
    (⟨"idle", 19/20⟩ : Decision).confidence ≤ 1 :=
  policy_output_range true (.obj []) ⟨"idle", 19/20⟩ rfl

/-- C10: on a list of well-formed entity records, nearby_count counts
exactly the entities whose distance field is present and strictly below
8; an entity lacking the field defaults to 99 and is never counted, so
it can never help trigger the swarm-flee rule. -/
theorem missing_distance_not_counted (es : List JVal)
    (h : es.all entWF = true) :
    nearbyCount es = .ok (es.countP countsNearby) :=
  nearbyCount_wf es h

/-- Witness for missing_distance_not_counted: of three entities - one
with no distance, one at distance 3, one at distance 50 - exactly one is
counted. -/
theorem missing_distance_not_counted_witness :
    nearbyCount [.obj [], .obj [("distance", .num 3)],
      .obj [("distance", .num 50)]] = .ok 1 :=
  (missing_distance_not_counted
    [.obj [], .obj [("distance", .num 3)], .obj [("distance", .num 50)]]
    rfl).trans rfl

/-- C2: for every inbound chunk sequence and every behaviour of the
decode, dumps and policy functions, handle_connection propagates no
exception to its caller (the except clause on line 76 catches everything
the try block raises; in this model the fallback send and the close do
not raise), and consequently the accept loop serves every connection:
the close event of each accepted connection appears in the server
trace. -/
theorem handler_never_propagates :
    (∀ (decode : List Char → Except PyErr JVal) (dumps : JVal → List Char)
        (policy : JVal → Except PyErr JVal) (chunks : List (List Char)),
        (handle_connection decode dumps policy chunks).escaped = none) ∧
    (∀ (decode : List Char → Except PyErr JVal) (dumps : JVal → List Char)
        (policy : JVal → Except PyErr JVal)
        (conns : List (List (List Char))) (i j : Nat), j < conns.length →
        Event.close (i + j) ∈ serverTrace decode dumps policy conns i) := by
  constructor
  · intro decode dumps policy chunks
    unfold handle_connection
    split <;> rfl
  · intro decode dumps policy conns
    induction conns with
    | nil => intro i j h; simp at h
    | cons c rest ih =>
      intro i j h
      unfold serverTrace
      rw [List.mem_append]
      cases j with
      | zero => left; simp [connEvents]
      | succ j' =>
        right
        have hj : j' < rest.length := by simpa using Nat.lt_of_succ_lt_succ h
        have := ih (i + 1) j' hj
        have harith : i + (j' + 1) = i + 1 + j' := by omega
        rw [harith]
        exact this

/-- Witness for handler_never_propagates at a one-connection trace. -/
theorem handler_never_propagates_witness :
    Event.close 0 ∈ serverTrace decodeOk dumpsConst policyOk [[['x', '\n']]] 0 :=
  handler_never_propagates.2 decodeOk dumpsConst policyOk [[['x', '\n']]] 0 0
    (by decide)

/-- C3: the stream is closed exactly once on every path, and whenever
the received bytes fail to decode, or the policy raises on the decoded
observation, the handler writes the fixed fallback bytes - the idle
decision with confidence 0.5 followed by a newline - as its only
response. -/
theorem fallback_and_single_close (decode : List Char → Except PyErr JVal)
    (dumps : JVal → List Char) (policy : JVal → Except PyErr JVal)
    (chunks : List (List Char)) :
    (handle_connection decode dumps policy chunks).closed = 1 ∧
    (recvData chunks [] ≠ [] →
      ((∃ er, decode (pyStrip (recvData chunks [])) = .error er) ∨
        (∃ obs er, decode (pyStrip (recvData chunks [])) = .ok obs ∧
          policy obs = .error er)) →
      (handle_connection decode dumps policy chunks).sent = [fallback_response]) := by
  constructor
  · unfold handle_connection
    split <;> rfl
  · intro hne herr
    unfold handle_connection handle_body
    rw [if_neg hne]
    rcases herr with ⟨er, he⟩ | ⟨obs, er, hobs, hp⟩
    · rw [he]
    · simp only [hobs, hp]

/-- Witness for fallback_and_single_close with a failing decoder. -/
theorem fallback_and_single_close_witness :
    (handle_connection decodeBad dumpsConst policyOk [['x', '\n']]).closed = 1 ∧
    (handle_connection decodeBad dumpsConst policyOk [['x', '\n']]).sent =
      [fallback_response] :=
  ⟨(fallback_and_single_close decodeBad dumpsConst policyOk [['x', '\n']]).1,
    (fallback_and_single_close decodeBad dumpsConst policyOk [['x', '\n']]).2
      (by decide) (Or.inl ⟨.valueError, rfl⟩)⟩

/-- C4 is false as stated: with two pending connections the server trace
is fully sequential - the acceptance of connection 1 occurs strictly
after connection 0 is closed, so handling connection 0 does block the
acceptance of connection 1. -/
theorem accept_blocked_until_close :
    serverTrace decodeOk dumpsConst policyOk [[['x', '\n']], [['y', '\n']]] 0 =
      [.accept 0, .send 0 ['o', 'k', '\n'], .close 0,
       .accept 1, .send 1 ['o', 'k', '\n'], .close 1] ∧
    (serverTrace decodeOk dumpsConst policyOk
        [[['x', '\n']], [['y', '\n']]] 0).findIdx (· == Event.close 0) <
      (serverTrace decodeOk dumpsConst policyOk
        [[['x', '\n']], [['y', '\n']]] 0).findIdx (· == Event.accept 1) :=
  ⟨rfl, by decide⟩

/-- C4 (amended): connections are handled strictly sequentially in
acceptance order: the accept loop of main calls the handler
synchronously, so the server trace is the in-order concatenation of
complete per-connection segments (accept, sends, close), and the
acceptance of a connection happens only after every earlier connection
has been fully handled and closed. -/
theorem server_handles_sequentially
    (decode : List Char → Except PyErr JVal) (dumps : JVal → List Char)
    (policy : JVal → Except PyErr JVal)
    (conns : List (List (List Char))) (i : Nat) :
    serverTrace decode dumps policy conns i =
      (conns.enumFrom i).flatMap (fun p =>
        Event.accept p.1 ::
          connEvents p.1 (handle_connection decode dumps policy p.2)) := by
  induction conns generalizing i with
  | nil => rfl
  | cons c rest ih =>
    simp [serverTrace, List.enumFrom, ih (i + 1)]

/-- With every chunk at most 4096 bytes (the recv bound of line 68) and
the buffer at most 8192 bytes, the read loop ends with at most 12288
bytes. -/
theorem recvData_bound (chunks : List (List Char)) :
    ∀ data : List Char, (∀ c ∈ chunks, c.length ≤ 4096) →
      data.length ≤ 8192 → (recvData chunks data).length ≤ 12288 := by
  induction chunks with
  | nil =>
    intro data _ hd
    unfold recvData
    omega
  | cons c rest ih =>
    intro data hc hd
    unfold recvData
    by_cases h1 : c = []
    · rw [if_pos h1]; omega
    · rw [if_neg h1]
      simp only []
      by_cases h2 : ('\n' ∈ data ++ c) ∨ (data ++ c).length > 8192
      · rw [if_pos h2]
        have hcl : c.length ≤ 4096 := hc c (by simp)
        simp only [List.length_append]
        omega
      · rw [if_neg h2]
        push_neg at h2
        exact ih (data ++ c) (fun x hx => hc x (by simp [hx]))
          (by simpa using h2.2)

/-- C5 is false as stated: fed a first chunk of exactly 8192 bytes
without a newline, the loop keeps reading (the break condition on line
71 is strictly greater than 8192), and a following 3-byte chunk leaves
a final buffer of 8195 bytes containing no newline - the accumulated
buffer does exceed 8192 bytes without containing a newline. -/
theorem read_loop_overrun :
    (recvData [List.replicate 8192 'a', ['b', 'b', 'b']] []).length = 8195 ∧
    '\n' ∉ recvData [List.replicate 8192 'a', ['b', 'b', 'b']] [] := by
  have hne1 : List.replicate 8192 'a' ≠ [] := by
    intro h
    have hl := congrArg List.length h
    simp only [List.length_replicate, List.length_nil] at hl
    omega
  have hstop1 : ¬(('\n' ∈ ([] : List Char) ++ List.replicate 8192 'a') ∨
      (([] : List Char) ++ List.replicate 8192 'a').length > 8192) := by
    simp only [List.nil_append, List.mem_replicate, List.length_replicate]
    rintro (⟨-, h⟩ | h)
    · exact absurd h (by decide)
    · omega
  have hne2 : (['b', 'b', 'b'] : List Char) ≠ [] := by decide
  have hstop2 : ('\n' ∈ (([] : List Char) ++ List.replicate 8192 'a') ++ ['b', 'b', 'b']) ∨
      ((([] : List Char) ++ List.replicate 8192 'a') ++ ['b', 'b', 'b']).length > 8192 := by
    right
    simp only [List.nil_append, List.length_append, List.length_replicate,
      List.length_cons, List.length_nil]
    omega
  have hstep : recvData [List.replicate 8192 'a', ['b', 'b', 'b']] [] =
      (([] : List Char) ++ List.replicate 8192 'a') ++ ['b', 'b', 'b'] := by
    unfold recvData
    rw [if_neg hne1]
    simp only []
    rw [if_neg hstop1]
    unfold recvData
    rw [if_neg hne2]
    simp only []
    rw [if_pos hstop2]
  rw [hstep]
  constructor
  · simp only [List.nil_append, List.length_append, List.length_replicate,
      List.length_cons, List.length_nil]
  · simp only [List.nil_append, List.mem_append, List.mem_replicate,
      List.mem_cons, List.not_mem_nil]
    rintro (⟨-, h⟩ | h | h | h) <;> exact absurd h (by decide)

/-- C5 (amended): the read loop stops as soon as the buffer holds a
newline or its length strictly exceeds 8192 (so with recv chunks of at
most 4096 bytes the buffer never exceeds 12288 bytes, though it can
exceed 8192), and if the peer closes before any bytes arrive the
handler writes no response. -/
theorem read_loop_amended :
    (∀ chunks : List (List Char), (∀ c ∈ chunks, c.length ≤ 4096) →
      (recvData chunks []).length ≤ 12288) ∧
    (∀ (c : List Char) (rest : List (List Char)) (data : List Char),
      c ≠ [] → ('\n' ∈ data ++ c ∨ (data ++ c).length > 8192) →
      recvData (c :: rest) data = data ++ c) ∧
    (∀ (decode : List Char → Except PyErr JVal) (dumps : JVal → List Char)
        (policy : JVal → Except PyErr JVal),
      (handle_connection decode dumps policy []).sent = [] ∧
      ∀ rest, (handle_connection decode dumps policy ([] :: rest)).sent = []) := by
  refine ⟨fun chunks hc => recvData_bound chunks [] hc (by simp), ?_, ?_⟩
  · intro c rest data hne hstop
    unfold recvData
    rw [if_neg hne]
    simp only []
    rw [if_pos hstop]
  · intro decode dumps policy
    constructor
    · rfl
    · intro rest; rfl

/-- Witness for read_loop_amended at concrete chunk lists. -/
theorem read_loop_amended_witness :
    (recvData [['h', 'i', '\n']] []).length ≤ 12288 ∧
    recvData [['x', '\n'], ['z']] [] = [] ++ ['x', '\n'] ∧
    (handle_connection decodeOk dumpsConst policyOk []).sent = [] :=
  ⟨read_loop_amended.1 [['h', 'i', '\n']] (by decide),
    read_loop_amended.2.1 ['x', '\n'] [['z']] [] (by decide) (by decide),
    (read_loop_amended.2.2 decodeOk dumpsConst policyOk).1⟩
